import Mathlib

/-!
Shallow embedding of the nest-drizzle-pagination core: the query parser
(QueryParserService), the filter-operator evaluator (applyFilterOperator),
the keyset where-clause builder (buildCursorWhereClause) and the pagination
executor (PaginationService).  TypeScript runtime values are modelled with
plain inductive types; JavaScript falsiness, parseInt and object lookup are
modelled explicitly; code that throws is modelled with Except.
-/

/-- A JavaScript value as it occurs in query parameters, records and SQL
predicate leaves: a number or a string. -/
inductive JsVal where
  | num (n : Int)
  | str (s : String)
deriving DecidableEq, Repr

/-- A thrown JavaScript error: a plain Error, or the BadRequestException
produced by throwBadRequestException. -/
inductive JsErr where
  | error (msg : String)
  | badRequest (msg : String)
deriving DecidableEq, Repr

/-- A Drizzle column reference: either an object carrying a name property,
or a raw SQL expression whose printed form may or may not match the
column-name pattern (the Option records the result of that match). -/
inductive Column where
  | named (n : String)
  | raw (printedMatch : Option String)
deriving DecidableEq, Repr

/-- A database row, as the JS object returned by the backend: an ordered
association list from field names to values. -/
abbrev RowRecord := List (String × JsVal)

/-- The decoded contents of a cursor token: an ordered mapping from field
names to values. -/
abbrev CursorValues := List (String × JsVal)

/-- The sqlProperty of a sort instruction: a field-name string or an
extractor function over the result record. -/
inductive SqlProp where
  | str (s : String)
  | fn (f : RowRecord → JsVal)

/-- A resolved sort instruction, as in types/interfaces.ts. -/
structure SortInstruction where
  propertyKey : String
  column : Column
  order : String
  sqlProperty : Option SqlProp := none

instance : Inhabited SortInstruction := ⟨⟨"", Column.named "", "ASC", none⟩⟩

/-- JS truthiness of an optional string parameter: absent and the empty
string are falsy. -/
def truthyStr (s : Option String) : Bool :=
  match s with
  | none => false
  | some s => s ≠ ""

/-- JS object property read: first binding of the key, none when absent. -/
def jsGet {α : Type} : List (String × α) → String → Option α
  | [], _ => none
  | (k0, v0) :: rest, k => if k0 = k then some v0 else jsGet rest k

/-- JS object property write: overwrites an existing binding in place,
otherwise appends (JS objects keep first-insertion key order). -/
def jsSet {α : Type} : List (String × α) → String → α → List (String × α)
  | [], k, v => [(k, v)]
  | (k0, v0) :: rest, k, v =>
    if k0 = k then (k0, v) :: rest else (k0, v0) :: jsSet rest k v

/-- Digits of a decimal prefix; none when the prefix has no digit. -/
def parseDigits (cs : List Char) : Option Nat :=
  let ds := cs.takeWhile Char.isDigit
  if ds.isEmpty then none
  else some (ds.foldl (fun acc c => acc * 10 + (c.toNat - 48)) 0)

/-- JS parseInt with radix 10: skip leading whitespace, optional sign, read
the leading digit run; none models NaN. -/
def jsParseInt (s : String) : Option Int :=
  let cs := s.toList.dropWhile Char.isWhitespace
  match cs with
  | '-' :: rest => (parseDigits rest).map (fun n => -(n : Int))
  | '+' :: rest => (parseDigits rest).map (fun n => (n : Int))
  | rest => (parseDigits rest).map (fun n => (n : Int))

/-- A JS arithmetic value where none models NaN. -/
abbrev JsNum := Option Int

/-- NaN-propagating subtraction. -/
def jsSub (a b : JsNum) : JsNum :=
  match a, b with
  | some x, some y => some (x - y)
  | _, _ => none

/-- NaN-propagating multiplication. -/
def jsMul (a b : JsNum) : JsNum :=
  match a, b with
  | some x, some y => some (x * y)
  | _, _ => none

/-- String rendering of a JsVal, as JS template interpolation produces. -/
def jsValToString (v : JsVal) : String :=
  match v with
  | .num n => toString n
  | .str s => s

/-- A Drizzle SQL predicate tree, as assembled by the library: relational
leaves, ilike, an existential subquery, and variadic and / or. -/
inductive SqlPred where
  | eqP (c : Column) (v : Option JsVal)
  | neP (c : Column) (v : Option JsVal)
  | gtP (c : Column) (v : Option JsVal)
  | ltP (c : Column) (v : Option JsVal)
  | gteP (c : Column) (v : Option JsVal)
  | lteP (c : Column) (v : Option JsVal)
  | ilikeP (c : Column) (pattern : String)
  | existsSub (table : Column) (cond : SqlPred)
  | andP (ps : List SqlPred)
  | orP (ps : List SqlPred)

/-- Drizzle and(...conditions): undefined on an empty argument list. -/
def jsAnd (l : List SqlPred) : Option SqlPred :=
  if l.isEmpty then none else some (SqlPred.andP l)

/-- Drizzle or(...conditions): undefined on an empty argument list. -/
def jsOr (l : List SqlPred) : Option SqlPred :=
  if l.isEmpty then none else some (SqlPred.orP l)

/-- The filter operators of types/interfaces.ts. -/
inductive FilterOperator where
  | eq
  | neq
  | gt
  | lt
  | gte
  | lte
  | like
  | existsOp
  | switchOp
  | custom
deriving DecidableEq, Repr

/-- A builder callback for the exists and custom operators. -/
abbrev Builder := JsVal → Column → SqlPred

/-- Embedding of applyFilterOperator from apply-filter-operator.ts: turns an
operator, column and value (plus the optional builder, join table and
conditions payloads) into a predicate, throwing a plain Error when a
required payload is missing or a switch value is unrecognized. -/
def applyFilterOperator (column : Column) (operator : FilterOperator)
    (value : JsVal) (builder : Option Builder) (table : Option Column)
    (conditions : Option (List (String × (Column → SqlPred)))) :
    Except JsErr SqlPred :=
  match operator with
  | .eq => .ok (.eqP column (some value))
  | .neq => .ok (.neP column (some value))
  | .gt => .ok (.gtP column (some value))
  | .lt => .ok (.ltP column (some value))
  | .gte => .ok (.gteP column (some value))
  | .lte => .ok (.lteP column (some value))
  | .like => .ok (.ilikeP column ("%" ++ jsValToString value ++ "%"))
  | .existsOp =>
    match builder with
    | none => .error (.error "builder function is required for \"exists\" filter operator")
    | some b =>
      match table with
      | none => .error (.error "table is required for \"exists\" filter operator")
      | some t => .ok (.existsSub t (b value column))
  | .switchOp =>
    match conditions with
    | none => .error (.error "conditions mapping is required for \"switch\" filter operator")
    | some conds =>
      if conds.isEmpty then
        .error (.error "conditions mapping is required for \"switch\" filter operator")
      else
        match jsGet conds (jsValToString value) with
        | none =>
          .error (.error ("Invalid value " ++ jsValToString value ++
            " for switch filter. Available options: " ++
            String.intercalate ", " (conds.map Prod.fst)))
        | some conditionFn => .ok (conditionFn column)
  | .custom =>
    match builder with
    | none => .error (.error "builder function is required for \"custom\" filter operator")
    | some b => .ok (b value column)

/-- The pagination type resolved for one request. -/
inductive PaginationType where
  | offset
  | cursor
deriving DecidableEq, Repr

/-- The pagination type a DTO permits. -/
inductive AllowedType where
  | offset
  | cursor
  | both
deriving DecidableEq, Repr

/-- A raw sortBy or sortOrder query parameter: a comma-separated string or
an array of repeated values. -/
inductive SortParam where
  | str (s : String)
  | arr (l : List String)
deriving DecidableEq, Repr

/-- The raw query parameters consumed by QueryParserService. -/
structure QueryParams where
  page : Option String := none
  cursor : Option String := none
  limit : Option String := none
  sortBy : Option SortParam := none
  sortOrder : Option SortParam := none
deriving DecidableEq, Repr

/-- JS truthiness of a sortBy or sortOrder parameter: absent and the empty
string are falsy, arrays are always truthy. -/
def truthySortParam (p : Option SortParam) : Bool :=
  match p with
  | none => false
  | some (.str s) => s ≠ ""
  | some (.arr _) => true

/-- Metadata stored by the Sortable decorator; aliasName embeds the source
field named alias, which is a reserved word here. -/
structure SortableMetadata where
  enabled : Bool
  aliasName : String
  sqlProperty : Option SqlProp := none

/-- A defaultSort entry of the Pagination decorator options. -/
structure SortDefinition where
  field : Column
  order : String

/-- Options of the Pagination decorator, all effectively optional at
runtime (the metadata object may be empty). -/
structure PaginationOptions where
  paginationType : Option AllowedType := none
  cursorIdField : Option Column := none
  limit : Option Int := none
  defaultSort : Option (List SortDefinition) := none
  allowCustomSort : Option Bool := none
  allowCustomLimit : Option Bool := none
  allowMultipleSort : Option Bool := none
  maxLimit : Option Int := none

/-- The reflection metadata attached to a DTO prototype: the insertion
ordered set of Prop decorated property keys, plus the per-property Prop and
Sortable metadata. -/
structure Proto where
  decoratedProps : List String
  propMeta : String → Option Column
  sortableMeta : String → Option SortableMetadata

/-- Embedding of QueryParserService.validateQueryType. -/
def validateQueryType (allowedType : AllowedType) (queryParams : QueryParams) :
    Except JsErr PaginationType :=
  match allowedType with
  | .offset =>
    if truthyStr queryParams.cursor then
      .error (.badRequest "Cursor-based pagination is not enabled for this endpoint. Use \"page\" parameter instead.")
    else .ok .offset
  | .cursor =>
    if truthyStr queryParams.page then
      .error (.badRequest "Offset-based pagination is not enabled for this endpoint. Remove \"page\" parameter to use cursor pagination.")
    else .ok .cursor
  | .both => .ok (if truthyStr queryParams.page then .offset else .cursor)

/-- Embedding of QueryParserService.parseSortArray. -/
def parseSortArray (sortString : SortParam) : List String :=
  match sortString with
  | .str s => ((s.splitOn ",").map String.trim).filter (fun t => t ≠ "")
  | .arr l => l

/-- Embedding of QueryParserService.getDefaultSorting. -/
def getDefaultSorting (paginationOptions : PaginationOptions) : List SortInstruction :=
  (paginationOptions.defaultSort.getD []).map
    (fun sortDef => ⟨"", sortDef.field, sortDef.order.toUpper, none⟩)

/-- The sortableAliasMap and availableSortableAliases built by
QueryParserService.parseSorting from the decorated properties. -/
def buildSortableAliases (prototype : Proto) :
    List (String × String) × List String :=
  prototype.decoratedProps.foldl
    (fun acc propertyKey =>
      match prototype.sortableMeta propertyKey with
      | some sm =>
        if sm.enabled then
          (jsSet acc.1 sm.aliasName propertyKey, acc.2 ++ [sm.aliasName])
        else acc
      | none => acc)
    ([], [])

/-- The order token parseSorting pairs with position i: the sortOrder
entry at i when truthy, ASC otherwise, upper-cased. -/
def sortOrderToken (sortOrderArray : List String) (i : Nat) : String :=
  (if sortOrderArray.getD i "" = "" then "ASC"
   else sortOrderArray.getD i "").toUpper

/-- Validity of the order token at position i: exactly ASC or DESC after
upper-casing. -/
def validOrderToken (sortOrderArray : List String) (i : Nat) : Prop :=
  sortOrderToken sortOrderArray i = "ASC" ∨
  sortOrderToken sortOrderArray i = "DESC"

instance (sortOrderArray : List String) (i : Nat) :
    Decidable (validOrderToken sortOrderArray i) := by
  unfold validOrderToken
  infer_instance

/-- The sortOrderArray parseSorting works with: the parsed sortOrder
parameter when truthy, the empty array otherwise. -/
def effectiveSortOrder (queryParams : QueryParams) : List String :=
  match queryParams.sortOrder with
  | some so => if truthySortParam (some so) then parseSortArray so else []
  | none => []

/-- The per-index body of the parseSorting loop: resolves each alias via the
sortableAliasMap, checks Prop metadata and the order token, and builds the
sort instructions in order; i is the loop index used to pair sortOrder
values positionally. -/
def parseSortingLoop (sortableAliasMap : List (String × String))
    (availableSortableAliases : List String) (propMeta : String → Option Column)
    (sortOrderArray : List String) :
    Nat → List String → Except JsErr (List SortInstruction)
  | _, [] => .ok []
  | i, sortByAlias :: rest =>
    let order := sortOrderToken sortOrderArray i
    match jsGet sortableAliasMap sortByAlias with
    | none =>
      .error (.badRequest (sortByAlias ++
        " is not a valid sortable field. Available sortable fields: " ++
        String.intercalate ", " availableSortableAliases))
    | some propertyKey =>
      match propMeta propertyKey with
      | none =>
        .error (.badRequest ("Property " ++ propertyKey ++
          " does not have @Prop decorator"))
      | some column =>
        if order ≠ "ASC" ∧ order ≠ "DESC" then
          .error (.badRequest ("Invalid sort order " ++ order ++
            " for field " ++ sortByAlias ++ ". Must be ASC or DESC"))
        else do
          let tail ← parseSortingLoop sortableAliasMap availableSortableAliases
            propMeta sortOrderArray (i + 1) rest
          .ok (⟨propertyKey, column, order, none⟩ :: tail)

/-- Embedding of QueryParserService.parseSorting. -/
def parseSorting (prototype : Proto) (queryParams : QueryParams)
    (paginationOptions : PaginationOptions) :
    Except JsErr (List SortInstruction) :=
  let allowCustomSort := paginationOptions.allowCustomSort.getD true
  let allowMultipleSort := paginationOptions.allowMultipleSort.getD true
  match queryParams.sortBy with
  | none => .ok (getDefaultSorting paginationOptions)
  | some sb =>
    if !allowCustomSort || !truthySortParam (some sb) then
      .ok (getDefaultSorting paginationOptions)
    else
      let sortByArray := parseSortArray sb
      let sortOrderArray := effectiveSortOrder queryParams
      if !allowMultipleSort && sortByArray.length > 1 then
        .error (.badRequest ("Multiple sort fields are not allowed. Received " ++
          toString sortByArray.length ++ " fields: " ++
          String.intercalate ", " sortByArray ++
          ". Only single field sorting is permitted."))
      else
        let built := buildSortableAliases prototype
        do
          let sorting ← parseSortingLoop built.1 built.2 prototype.propMeta
            sortOrderArray 0 sortByArray
          .ok (if sorting.length > 0 then sorting
               else getDefaultSorting paginationOptions)

/-- Embedding of QueryParserService.parseLimit. -/
def parseLimit (queryParams : QueryParams)
    (paginationOptions : PaginationOptions) : Except JsErr Int :=
  let allowCustomLimit := paginationOptions.allowCustomLimit.getD true
  let defaultLimit := paginationOptions.limit.getD 10
  let maxLimit := paginationOptions.maxLimit.getD 100
  if !allowCustomLimit || !truthyStr queryParams.limit then
    .ok defaultLimit
  else
    let rawLimit := queryParams.limit.getD ""
    match jsParseInt rawLimit with
    | none =>
      .error (.badRequest ("Invalid limit value: " ++ rawLimit ++
        ". Limit must be a positive integer"))
    | some requestedLimit =>
      if requestedLimit ≤ 0 then
        .error (.badRequest ("Invalid limit value: " ++ rawLimit ++
          ". Limit must be a positive integer"))
      else if requestedLimit > maxLimit then
        .error (.badRequest ("Limit value " ++ toString requestedLimit ++
          " exceeds maximum allowed limit of " ++ toString maxLimit))
      else .ok requestedLimit

/-- Embedding of the offset-mode tail of QueryParserService.parse (the else
branch setting result.page and result.offset): page is parseInt of the page
parameter when that parameter is truthy and 1 otherwise, and offset is
computed as (page - 1) * limit with NaN propagation. -/
def parsePageOffset (queryParams : QueryParams) (limit : Int) : JsNum × JsNum :=
  let page : JsNum :=
    if truthyStr queryParams.page then jsParseInt (queryParams.page.getD "")
    else some 1
  (page, jsMul (jsSub page (some 1)) (some limit))

/-- Embedding of getColumnName from cursor-where-builder.ts: the name
property when present, else the pattern match on the printed column, else a
thrown Error. -/
def getColumnNameWB (column : Column) : Except JsErr String :=
  match column with
  | .named n => .ok n
  | .raw (some m) => .ok m
  | .raw none => .error (.error "Unable to extract column name from column reference")

/-- Embedding of getCursorKey from cursor-where-builder.ts: propertyKey
when truthy, else a truthy string sqlProperty, else the derived column
name. -/
def getCursorKeyWB (sort : SortInstruction) : Except JsErr String :=
  if sort.propertyKey ≠ "" then .ok sort.propertyKey
  else
    match sort.sqlProperty with
    | some (.str s) => if s ≠ "" then .ok s else getColumnNameWB sort.column
    | _ => getColumnNameWB sort.column

/-- Embedding of getComparisonOperator from cursor-where-builder.ts. -/
def getComparisonOperator (column : Column) (value : Option JsVal)
    (order : String) : SqlPred :=
  if order.toUpper = "ASC" then .gtP column value else .ltP column value

/-- The main loop of buildCursorWhereClause: for each position the strict
comparison on the current instruction, conjoined with equalities on all
previously processed instructions; prev carries the instructions before the
current one, in order. -/
def positionalCursorClauses (cursorValues : CursorValues) :
    List SortInstruction → List SortInstruction → Except JsErr (List SqlPred)
  | _, [] => .ok []
  | prev, currentSort :: rest => do
    let currentFieldName ← getCursorKeyWB currentSort
    match jsGet cursorValues currentFieldName with
    | none =>
      .error (.error ("Cursor missing value for field: " ++ currentFieldName))
    | some _ => do
      let equalityConditions ← prev.mapM (fun prevSort => do
        let prevFieldName ← getCursorKeyWB prevSort
        pure (SqlPred.eqP prevSort.column (jsGet cursorValues prevFieldName)))
      let comparison := getComparisonOperator currentSort.column
        (jsGet cursorValues currentFieldName) currentSort.order
      let clause := if equalityConditions.length > 0 then
          SqlPred.andP (equalityConditions ++ [comparison])
        else comparison
      let tail ← positionalCursorClauses cursorValues (prev ++ [currentSort]) rest
      .ok (clause :: tail)

/-- Embedding of buildCursorWhereClause from cursor-where-builder.ts. -/
def buildCursorWhereClause (sortInstructions : List SortInstruction)
    (cursorValues : CursorValues) (cursorIdField : Column) :
    Except JsErr (Option SqlPred) :=
  if sortInstructions.length = 0 then .ok none
  else do
    let idFieldName ← getColumnNameWB cursorIdField
    if (jsGet cursorValues idFieldName).isNone then
      .error (.error ("Cursor missing required ID field: " ++ idFieldName))
    else do
      let conditions ← positionalCursorClauses cursorValues [] sortInstructions
      let finalEqualityConditions ← sortInstructions.mapM (fun sortInstruction => do
        let fieldName ← getCursorKeyWB sortInstruction
        pure (SqlPred.eqP sortInstruction.column (jsGet cursorValues fieldName)))
      let lastSortOrder :=
        match sortInstructions.getLast? with
        | some s => if s.order = "" then "ASC" else s.order
        | none => "ASC"
      let idComparison := getComparisonOperator cursorIdField
        (jsGet cursorValues idFieldName) lastSortOrder
      .ok (jsOr (conditions ++
        [SqlPred.andP (finalEqualityConditions ++ [idComparison])]))

/-- Embedding of PaginationService.getColumnName: like the where-builder
version but returns the empty string instead of throwing when no name can
be derived. -/
def getColumnNameSvc (column : Column) : String :=
  match column with
  | .named n => n
  | .raw (some m) => m
  | .raw none => ""

/-- Embedding of PaginationService.getCursorKey. -/
def getCursorKeySvc (sort : SortInstruction) : String :=
  if sort.propertyKey ≠ "" then sort.propertyKey
  else
    match sort.sqlProperty with
    | some (.str s) => if s ≠ "" then s else getColumnNameSvc sort.column
    | _ => getColumnNameSvc sort.column

/-- Embedding of PaginationService.ensureIdInSorting. -/
def ensureIdInSorting (sorting : List SortInstruction) (cursorIdField : Column) :
    List SortInstruction :=
  let idFieldName := getColumnNameSvc cursorIdField
  let hasId := sorting.any (fun sort => getColumnNameSvc sort.column = idFieldName)
  if hasId then sorting
  else sorting ++ [⟨idFieldName, cursorIdField, "ASC", none⟩]

/-- The loop of PaginationService.extractCursorValuesFromRecord, carrying
the values object built so far. -/
def extractCursorLoop (record : RowRecord) :
    CursorValues → List SortInstruction → Except JsErr CursorValues
  | values, [] => .ok values
  | values, sort :: rest =>
    let cursorKey := getCursorKeySvc sort
    match sort.sqlProperty with
    | some (.fn f) => extractCursorLoop record (jsSet values cursorKey (f record)) rest
    | some (.str s) =>
      if s ≠ "" then
        match jsGet record s with
        | none =>
          .error (.error ("Field " ++ s ++ " not found in record for cursor generation"))
        | some v => extractCursorLoop record (jsSet values cursorKey v) rest
      else
        match jsGet record cursorKey with
        | none =>
          .error (.error ("Field " ++ cursorKey ++ " not found in record for cursor generation"))
        | some v => extractCursorLoop record (jsSet values cursorKey v) rest
    | none =>
      match jsGet record cursorKey with
      | none =>
        .error (.error ("Field " ++ cursorKey ++ " not found in record for cursor generation"))
      | some v => extractCursorLoop record (jsSet values cursorKey v) rest

/-- Embedding of PaginationService.extractCursorValuesFromRecord. -/
def extractCursorValuesFromRecord (record : RowRecord)
    (sortInstructions : List SortInstruction) : Except JsErr CursorValues :=
  extractCursorLoop record [] sortInstructions

/-- Modelled from the spec: cursor.utils.ts (the CursorCodec) is not under
src. Per the spec, encode turns an ordered field to value mapping into an
opaque string token; the concrete format is implementation defined, so a
simple injective textual rendering is used here. -/
def encodeCursor (values : CursorValues) : String :=
  String.intercalate ";" (values.map (fun p => p.1 ++ "=" ++ jsValToString p.2))

/-- Modelled from the spec: cursor.utils.ts (the CursorCodec) is not under
src. Per the spec, decode inverts encode and fails on a malformed token
with a bad-cursor error rather than crashing. -/
def decodeCursor (token : String) : Except JsErr CursorValues :=
  (token.splitOn ";").mapM (fun part =>
    match part.splitOn "=" with
    | [k, v] =>
      .ok (k, match jsParseInt v with
              | some n => JsVal.num n
              | none => JsVal.str v)
    | _ => .error (.badRequest "Invalid cursor"))

/-- A resolved filter instruction, as in types/interfaces.ts. -/
structure FilterInstruction where
  propertyKey : String
  column : Column
  operator : FilterOperator
  value : JsVal
  builder : Option Builder := none
  table : Option Column := none
  conditions : Option (List (String × (Column → SqlPred))) := none

/-- The cursor paginated response shape of types/interfaces.ts, with rows
fixed to RowRecord. -/
structure CursorPaginatedResponse where
  values : List RowRecord
  cursor : Option String
deriving DecidableEq, Repr

/-- The row count PaginationService.executeCursor requests from the
backend: one more than the page limit (query.limit(limit + 1)). -/
def cursorFetchLimit (limit : Nat) : Nat := limit + 1

/-- Embedding of the page-assembly tail of PaginationService.executeCursor
(from const results = await query onwards): hasMore detection, dropping of
the over-fetched row, and next-cursor extraction and encoding from the last
returned record. -/
def cursorPageAssemble (results : List RowRecord) (limit : Nat)
    (sortingWithId : List SortInstruction) : Except JsErr CursorPaginatedResponse :=
  let hasMore := results.length > limit
  let data := if hasMore then results.take limit else results
  if hasMore ∧ data.length > 0 then
    match data.getLast? with
    | some lastRecord => do
      let cursorValues ← extractCursorValuesFromRecord lastRecord sortingWithId
      .ok ⟨data, some (encodeCursor cursorValues)⟩
    | none => .ok ⟨data, none⟩
  else .ok ⟨data, none⟩

/-- Embedding of the WHERE-clause assembly of
PaginationService.executeOffset (lines guarded by filters.length > 0): the
predicate passed to query.where, or none when query.where is never
called. -/
def executeOffsetWhere (filters : List FilterInstruction)
    (extraConditions : List SqlPred) : Except JsErr (Option SqlPred) :=
  if filters.length > 0 then do
    let filterConditions ← filters.mapM (fun filter =>
      applyFilterOperator filter.column filter.operator filter.value
        filter.builder filter.table filter.conditions)
    .ok (jsAnd (filterConditions ++ extraConditions))
  else .ok none

/-- Embedding of the WHERE-clause assembly of
PaginationService.executeCursor: filter predicates are always built, the
keyset predicate is added when a cursor was supplied, and everything is
combined with and. -/
def executeCursorWhere (filters : List FilterInstruction)
    (sorting : List SortInstruction) (cursorIdField : Column)
    (cursor : Option String) (extraConditions : List SqlPred) :
    Except JsErr (Option SqlPred) := do
  let filterConditions ← filters.mapM (fun filter =>
    applyFilterOperator filter.column filter.operator filter.value
      filter.builder filter.table filter.conditions)
  let sortingWithId := ensureIdInSorting sorting cursorIdField
  let cursorWhere ←
    if truthyStr cursor then do
      let cursorValues ← decodeCursor (cursor.getD "")
      buildCursorWhereClause sortingWithId cursorValues cursorIdField
    else pure none
  match cursorWhere with
  | some w => .ok (jsAnd (w :: (filterConditions ++ extraConditions)))
  | none => .ok (jsAnd (filterConditions ++ extraConditions))

/-- Structural equality of JS values, as strict equality compares them. -/
def jsEqV (a b : JsVal) : Bool := a = b

/-- The SQL strict less-than on values: numeric on numbers, lexicographic
on strings, false across kinds. -/
def jsLtV (a b : JsVal) : Bool :=
  match a, b with
  | .num x, .num y => x < y
  | .str x, .str y => x < y
  | _, _ => false

mutual

/-- Row semantics of a predicate tree: a row assigns a value to every
column reference; comparisons with an absent (undefined) value and the
opaque ilike and exists leaves evaluate to false. -/
def evalPred (row : Column → JsVal) : SqlPred → Bool
  | .eqP c (some v) => jsEqV (row c) v
  | .eqP _ none => false
  | .neP c (some v) => !(jsEqV (row c) v)
  | .neP _ none => false
  | .gtP c (some v) => jsLtV v (row c)
  | .gtP _ none => false
  | .ltP c (some v) => jsLtV (row c) v
  | .ltP _ none => false
  | .gteP c (some v) => jsLtV v (row c) || jsEqV (row c) v
  | .gteP _ none => false
  | .lteP c (some v) => jsLtV (row c) v || jsEqV (row c) v
  | .lteP _ none => false
  | .ilikeP _ _ => false
  | .existsSub _ _ => false
  | .andP ps => evalAllPred row ps
  | .orP ps => evalAnyPred row ps

/-- Conjunction of the row semantics over a list of predicates. -/
def evalAllPred (row : Column → JsVal) : List SqlPred → Bool
  | [] => true
  | p :: ps => evalPred row p && evalAllPred row ps

/-- Disjunction of the row semantics over a list of predicates. -/
def evalAnyPred (row : Column → JsVal) : List SqlPred → Bool
  | [] => false
  | p :: ps => evalPred row p || evalAnyPred row ps

end

/-- Equality clause of the keyset algorithm as the spec words it: the
instruction column compared to the cursor value stored under its key. -/
def specEqClause (cursorValues : CursorValues) (keyOf : SortInstruction → String)
    (s : SortInstruction) : SqlPred :=
  .eqP s.column (jsGet cursorValues (keyOf s))

/-- Positional clause i of the keyset algorithm as the spec words it:
equality on instructions 0..i-1 conjoined with the strict comparison on
instruction i (a bare comparison at position 0). -/
def specPositionalClause (cursorValues : CursorValues)
    (keyOf : SortInstruction → String) (si : List SortInstruction) (i : Nat) :
    SqlPred :=
  let s := si.getD i default
  let cmp := getComparisonOperator s.column (jsGet cursorValues (keyOf s)) s.order
  if i = 0 then cmp
  else .andP ((si.take i).map (specEqClause cursorValues keyOf) ++ [cmp])

/-- All positional clauses of the keyset algorithm. -/
def specPositionalClauses (cursorValues : CursorValues)
    (keyOf : SortInstruction → String) (si : List SortInstruction) :
    List SqlPred :=
  (List.range si.length).map (specPositionalClause cursorValues keyOf si)

/-- Final clause of the keyset algorithm as the spec words it: equality on
every sort instruction conjoined with the strict comparison on the id
field, in the direction of the last sort instruction. -/
def specFinalClause (cursorValues : CursorValues)
    (keyOf : SortInstruction → String) (si : List SortInstruction)
    (cursorIdField : Column) (idFieldName : String) : SqlPred :=
  let lastSortOrder :=
    match si.getLast? with
    | some s => if s.order = "" then "ASC" else s.order
    | none => "ASC"
  .andP (si.map (specEqClause cursorValues keyOf) ++
    [getComparisonOperator cursorIdField (jsGet cursorValues idFieldName) lastSortOrder])

/-- Embedding of PropDecorator from prop.decorator.ts: defines the Prop
metadata for the property and adds the property key to the decorated set
(a JS Set: adding an existing key is a no-op, otherwise insertion order is
kept). -/
def PropDecorator (column : Column) (propertyKey : String) (prototype : Proto) :
    Proto :=
  ⟨if propertyKey ∈ prototype.decoratedProps then prototype.decoratedProps
   else prototype.decoratedProps ++ [propertyKey],
   fun k => if k = propertyKey then some column else prototype.propMeta k,
   prototype.sortableMeta⟩

theorem jsGet_jsSet {α : Type} (m : List (String × α)) (k a : String) (v : α) :
    jsGet (jsSet m k v) a = if k = a then some v else jsGet m a := by
  induction m with
  | nil => simp [jsSet, jsGet]
  | cons hd tl ih =>
    obtain ⟨k0, v0⟩ := hd
    by_cases h0 : k0 = k
    · subst h0
      by_cases ha : k0 = a <;> simp [jsSet, jsGet, ha]
    · by_cases ha : k0 = a
      · subst ha
        have : ¬(k = k0) := fun h => h0 h.symm
        simp [jsSet, jsGet, h0, this]
      · simp [jsSet, jsGet, h0, ha, ih]

theorem mapM_eqClause_ok (cursorValues : CursorValues)
    (keyOf : SortInstruction → String) (l : List SortInstruction)
    (hkeys : ∀ s ∈ l, getCursorKeyWB s = .ok (keyOf s)) :
    (l.mapM (fun prevSort => do
      let prevFieldName ← getCursorKeyWB prevSort
      pure (SqlPred.eqP prevSort.column (jsGet cursorValues prevFieldName))) :
      Except JsErr (List SqlPred)) =
    .ok (l.map (specEqClause cursorValues keyOf)) := by
  induction l with
  | nil => rfl
  | cons hd tl ih =>
    have hhd := hkeys hd (List.mem_cons_self hd tl)
    have htl := ih (fun s hs => hkeys s (List.mem_cons_of_mem hd hs))
    rw [List.mapM_cons, hhd, htl]
    rfl

theorem evalAnyPred_append (row : Column → JsVal) (l1 l2 : List SqlPred) :
    evalAnyPred row (l1 ++ l2) = (evalAnyPred row l1 || evalAnyPred row l2) := by
  induction l1 with
  | nil => simp [evalAnyPred]
  | cons hd tl ih => simp [evalAnyPred, ih, Bool.or_assoc]

theorem evalAllPred_append (row : Column → JsVal) (l1 l2 : List SqlPred) :
    evalAllPred row (l1 ++ l2) = (evalAllPred row l1 && evalAllPred row l2) := by
  induction l1 with
  | nil => simp [evalAllPred]
  | cons hd tl ih => simp [evalAllPred, ih, Bool.and_assoc]

theorem evalAllPred_eq_true_of_mem (row : Column → JsVal) (l : List SqlPred)
    (h : evalAllPred row l = true) : ∀ p ∈ l, evalPred row p = true := by
  induction l with
  | nil => intro p hp; cases hp
  | cons hd tl ih =>
    intro p hp
    rw [List.mem_cons] at hp
    rw [evalAllPred, Bool.and_eq_true] at h
    rcases hp with hp | hp
    · exact hp ▸ h.1
    · exact ih h.2 p hp

theorem jsLtV_irrefl (v : JsVal) : jsLtV v v = false := by
  cases v with
  | num n => simp [jsLtV]
  | str s => simp [jsLtV]

theorem exceptBind_ok {ε α β : Type} (a : α) (f : α → Except ε β) :
    (Except.ok a : Except ε α) >>= f = f a := rfl

theorem exceptBind_error {ε α β : Type} (e : ε) (f : α → Except ε β) :
    (Except.error e : Except ε α) >>= f = Except.error e := rfl

set_option maxRecDepth 4000 in
theorem positionalCursorClauses_closedForm (cursorValues : CursorValues)
    (keyOf : SortInstruction → String) :
    ∀ (rest prev : List SortInstruction),
    (∀ s ∈ prev, getCursorKeyWB s = .ok (keyOf s)) →
    (∀ s ∈ rest, getCursorKeyWB s = .ok (keyOf s)) →
    (∀ s ∈ rest, (jsGet cursorValues (keyOf s)).isSome) →
    positionalCursorClauses cursorValues prev rest =
      .ok ((List.range rest.length).map (fun j =>
        let s := rest.getD j default
        let cmp := getComparisonOperator s.column (jsGet cursorValues (keyOf s)) s.order
        let eqs := (prev ++ rest.take j).map (specEqClause cursorValues keyOf)
        if eqs.length > 0 then SqlPred.andP (eqs ++ [cmp]) else cmp))
  | [], prev => by
    intro _ _ _
    simp [positionalCursorClauses]
  | cur :: rest2, prev => by
    intro hprev hkeys hvals
    have hkc : getCursorKeyWB cur = .ok (keyOf cur) :=
      hkeys cur (List.mem_cons_self _ _)
    have hvc := hvals cur (List.mem_cons_self _ _)
    obtain ⟨v, hv⟩ := Option.isSome_iff_exists.mp hvc
    have hmap := mapM_eqClause_ok cursorValues keyOf prev hprev
    have hpc : ∀ s ∈ prev ++ [cur], getCursorKeyWB s = .ok (keyOf s) := by
      intro s hs
      rcases List.mem_append.mp hs with h | h
      · exact hprev s h
      · rw [List.mem_singleton] at h
        exact h ▸ hkc
    have htail := positionalCursorClauses_closedForm cursorValues keyOf rest2
      (prev ++ [cur]) hpc
      (fun s hs => hkeys s (List.mem_cons_of_mem _ hs))
      (fun s hs => hvals s (List.mem_cons_of_mem _ hs))
    rw [positionalCursorClauses, hkc]
    simp only [exceptBind_ok]
    rw [hv]
    simp only [hmap, exceptBind_ok, htail, List.length_cons,
      List.range_succ_eq_map, List.map_cons, List.map_map]
    congr 1
    congr 1
    · simp only [List.getD_cons_zero, List.take_zero, List.append_nil, hv]
    · congr 1
      funext j
      simp only [Function.comp_apply, List.getD_cons_succ, List.take_succ_cons,
        List.append_assoc, List.singleton_append]

theorem specPositional_eq_codeForm (cursorValues : CursorValues)
    (keyOf : SortInstruction → String) (si : List SortInstruction) :
    (List.range si.length).map (fun j =>
      if (List.map (specEqClause cursorValues keyOf) ([] ++ List.take j si)).length > 0 then
        SqlPred.andP (List.map (specEqClause cursorValues keyOf) ([] ++ List.take j si) ++
          [getComparisonOperator (si.getD j default).column
            (jsGet cursorValues (keyOf (si.getD j default))) (si.getD j default).order])
      else getComparisonOperator (si.getD j default).column
        (jsGet cursorValues (keyOf (si.getD j default))) (si.getD j default).order) =
    specPositionalClauses cursorValues keyOf si := by
  unfold specPositionalClauses
  apply List.map_congr_left
  intro j hj
  rw [List.mem_range] at hj
  simp only [List.nil_append, specPositionalClause]
  by_cases hj0 : j = 0
  · subst hj0
    simp
  · have hlen : (si.take j).length = j := by
      rw [List.length_take]
      omega
    have hpos : (List.map (specEqClause cursorValues keyOf) (si.take j)).length > 0 := by
      rw [List.length_map, hlen]
      omega
    rw [if_pos hpos, if_neg hj0]

theorem buildCursorWhereClause_closedForm (si : List SortInstruction)
    (cursorValues : CursorValues) (cursorIdField : Column)
    (keyOf : SortInstruction → String) (idn : String)
    (hne : ¬si.length = 0)
    (hid : getColumnNameWB cursorIdField = .ok idn)
    (hkeys : ∀ s ∈ si, getCursorKeyWB s = .ok (keyOf s))
    (hidv : (jsGet cursorValues idn).isSome)
    (hvals : ∀ s ∈ si, (jsGet cursorValues (keyOf s)).isSome) :
    buildCursorWhereClause si cursorValues cursorIdField =
      .ok (some (SqlPred.orP (specPositionalClauses cursorValues keyOf si ++
        [specFinalClause cursorValues keyOf si cursorIdField idn]))) := by
  obtain ⟨w, hw⟩ := Option.isSome_iff_exists.mp hidv
  rw [buildCursorWhereClause, if_neg hne, hid]
  simp only [exceptBind_ok]
  rw [hw]
  simp only [Option.isNone_some, Bool.false_eq_true, if_false]
  rw [positionalCursorClauses_closedForm cursorValues keyOf si []
    (by intro s hs; cases hs) hkeys hvals]
  simp only [exceptBind_ok]
  rw [mapM_eqClause_ok cursorValues keyOf si hkeys]
  simp only [exceptBind_ok]
  have hnonempty :
      ∀ (A : List SqlPred) (B : SqlPred), (A ++ [B]).isEmpty = false := by
    intro A B
    cases A <;> simp [List.isEmpty]
  rw [jsOr, hnonempty]
  simp only [Bool.false_eq_true, if_false]
  rw [specPositional_eq_codeForm]
  rw [← hw]
  simp only [specFinalClause]

theorem buildCursorWhereClause_missing_id (si : List SortInstruction)
    (cursorValues : CursorValues) (cursorIdField : Column) (idn : String)
    (hne : ¬si.length = 0)
    (hid : getColumnNameWB cursorIdField = .ok idn)
    (hmiss : jsGet cursorValues idn = none) :
    buildCursorWhereClause si cursorValues cursorIdField =
      .error (.error ("Cursor missing required ID field: " ++ idn)) := by
  rw [buildCursorWhereClause, if_neg hne, hid]
  simp only [exceptBind_ok]
  rw [hmiss]
  simp only [Option.isNone_none, if_true]

theorem positionalCursorClauses_missing (cursorValues : CursorValues)
    (keyOf : SortInstruction → String) :
    ∀ (rest prev : List SortInstruction),
    (∀ s ∈ prev, getCursorKeyWB s = .ok (keyOf s)) →
    (∀ s ∈ rest, getCursorKeyWB s = .ok (keyOf s)) →
    (∃ s ∈ rest, jsGet cursorValues (keyOf s) = none) →
    ∃ k, positionalCursorClauses cursorValues prev rest =
        .error (.error ("Cursor missing value for field: " ++ k)) ∧
      jsGet cursorValues k = none
  | [], prev => by
    intro _ _ hmiss
    obtain ⟨s, hs, _⟩ := hmiss
    cases hs
  | cur :: rest2, prev => by
    intro hprev hkeys hmiss
    have hkc : getCursorKeyWB cur = .ok (keyOf cur) :=
      hkeys cur (List.mem_cons_self _ _)
    rcases hcur : jsGet cursorValues (keyOf cur) with _ | v
    · refine ⟨keyOf cur, ?_, hcur⟩
      rw [positionalCursorClauses, hkc]
      simp only [exceptBind_ok]
      rw [hcur]
    · have hmiss2 : ∃ s ∈ rest2, jsGet cursorValues (keyOf s) = none := by
        obtain ⟨s, hs, hsn⟩ := hmiss
        rw [List.mem_cons] at hs
        rcases hs with hs | hs
        · subst hs
          rw [hcur] at hsn
          cases hsn
        · exact ⟨s, hs, hsn⟩
      have hpc : ∀ s ∈ prev ++ [cur], getCursorKeyWB s = .ok (keyOf s) := by
        intro s hs
        rcases List.mem_append.mp hs with h | h
        · exact hprev s h
        · rw [List.mem_singleton] at h
          exact h ▸ hkc
      obtain ⟨k, herr, hk⟩ := positionalCursorClauses_missing cursorValues keyOf
        rest2 (prev ++ [cur]) hpc
        (fun s hs => hkeys s (List.mem_cons_of_mem _ hs)) hmiss2
      refine ⟨k, ?_, hk⟩
      rw [positionalCursorClauses, hkc]
      simp only [exceptBind_ok]
      rw [hcur]
      rw [mapM_eqClause_ok cursorValues keyOf prev hprev]
      simp only [exceptBind_ok]
      rw [herr]
      rfl

theorem buildCursorWhereClause_missing_value (si : List SortInstruction)
    (cursorValues : CursorValues) (cursorIdField : Column)
    (keyOf : SortInstruction → String) (idn : String)
    (hne : ¬si.length = 0)
    (hid : getColumnNameWB cursorIdField = .ok idn)
    (hkeys : ∀ s ∈ si, getCursorKeyWB s = .ok (keyOf s))
    (hidv : (jsGet cursorValues idn).isSome)
    (hmiss : ∃ s ∈ si, jsGet cursorValues (keyOf s) = none) :
    ∃ k, buildCursorWhereClause si cursorValues cursorIdField =
        .error (.error ("Cursor missing value for field: " ++ k)) ∧
      jsGet cursorValues k = none := by
  obtain ⟨w, hw⟩ := Option.isSome_iff_exists.mp hidv
  obtain ⟨k, herr, hk⟩ := positionalCursorClauses_missing cursorValues keyOf si []
    (by intro s hs; cases hs) hkeys hmiss
  refine ⟨k, ?_, hk⟩
  rw [buildCursorWhereClause, if_neg hne, hid]
  simp only [exceptBind_ok]
  rw [hw]
  simp only [Option.isNone_some, Bool.false_eq_true, if_false]
  rw [herr]
  rfl

/-- C2: for every non-empty list of sort instructions whose cursor keys
resolve, and every decoded cursor mapping containing a value for the id
field and for every sort instruction, buildCursorWhereClause returns the OR
of the positional clauses (equalities on instructions 0..i-1 conjoined
with the strict comparison on instruction i, ASC giving greater-than and
DESC less-than) plus the final clause (equality on every instruction
conjoined with the strict id comparison in the direction of the last
instruction); and it fails with a missing-cursor-field error whenever the
cursor lacks the id value or any sort instruction value. -/
theorem buildCursorWhereClause_spec
    (si : List SortInstruction) (cursorValues : CursorValues)
    (cursorIdField : Column) (keyOf : SortInstruction → String) (idn : String)
    (hne : ¬si.length = 0)
    (hid : getColumnNameWB cursorIdField = .ok idn)
    (hkeys : ∀ s ∈ si, getCursorKeyWB s = .ok (keyOf s)) :
    ((jsGet cursorValues idn).isSome →
      (∀ s ∈ si, (jsGet cursorValues (keyOf s)).isSome) →
      buildCursorWhereClause si cursorValues cursorIdField =
        .ok (some (SqlPred.orP (specPositionalClauses cursorValues keyOf si ++
          [specFinalClause cursorValues keyOf si cursorIdField idn])))) ∧
    (jsGet cursorValues idn = none →
      buildCursorWhereClause si cursorValues cursorIdField =
        .error (.error ("Cursor missing required ID field: " ++ idn))) ∧
    ((jsGet cursorValues idn).isSome →
      (∃ s ∈ si, jsGet cursorValues (keyOf s) = none) →
      ∃ k, buildCursorWhereClause si cursorValues cursorIdField =
          .error (.error ("Cursor missing value for field: " ++ k)) ∧
        jsGet cursorValues k = none) :=
  ⟨fun hidv hvals =>
    buildCursorWhereClause_closedForm si cursorValues cursorIdField keyOf idn
      hne hid hkeys hidv hvals,
   fun hmiss =>
    buildCursorWhereClause_missing_id si cursorValues cursorIdField idn
      hne hid hmiss,
   fun hidv hmiss =>
    buildCursorWhereClause_missing_value si cursorValues cursorIdField keyOf idn
      hne hid hkeys hidv hmiss⟩

/-- Witness for C2 at a concrete two-instruction sort with a complete
cursor. -/
theorem buildCursorWhereClause_spec_witness :
    buildCursorWhereClause
      [⟨"name", Column.named "name", "ASC", none⟩,
       ⟨"id", Column.named "id", "ASC", none⟩]
      [("name", JsVal.str "John"), ("id", JsVal.num 3)] (Column.named "id") =
      .ok (some (SqlPred.orP (specPositionalClauses
        [("name", JsVal.str "John"), ("id", JsVal.num 3)]
        (fun s => s.propertyKey)
        [⟨"name", Column.named "name", "ASC", none⟩,
         ⟨"id", Column.named "id", "ASC", none⟩] ++
        [specFinalClause [("name", JsVal.str "John"), ("id", JsVal.num 3)]
          (fun s => s.propertyKey)
          [⟨"name", Column.named "name", "ASC", none⟩,
           ⟨"id", Column.named "id", "ASC", none⟩]
          (Column.named "id") "id"]))) :=
  (buildCursorWhereClause_spec
    [⟨"name", Column.named "name", "ASC", none⟩,
     ⟨"id", Column.named "id", "ASC", none⟩]
    [("name", JsVal.str "John"), ("id", JsVal.num 3)]
    (Column.named "id") (fun s => s.propertyKey) "id"
    (by simp) rfl
    (by
      intro s hs
      rw [List.mem_cons, List.mem_singleton] at hs
      rcases hs with h | h <;> subst h <;> rfl)).1
    rfl
    (by
      intro s hs
      rw [List.mem_cons, List.mem_singleton] at hs
      rcases hs with h | h <;> subst h <;> rfl)

theorem evalPred_eqP (row : Column → JsVal) (c : Column) (v : JsVal) :
    evalPred row (SqlPred.eqP c (some v)) = jsEqV (row c) v := by
  simp [evalPred]

theorem evalPred_gtP (row : Column → JsVal) (c : Column) (v : JsVal) :
    evalPred row (SqlPred.gtP c (some v)) = jsLtV v (row c) := by
  simp [evalPred]

theorem evalPred_ltP (row : Column → JsVal) (c : Column) (v : JsVal) :
    evalPred row (SqlPred.ltP c (some v)) = jsLtV (row c) v := by
  simp [evalPred]

theorem evalPred_andP (row : Column → JsVal) (ps : List SqlPred) :
    evalPred row (SqlPred.andP ps) = evalAllPred row ps := by
  simp [evalPred]

theorem evalPred_orP (row : Column → JsVal) (ps : List SqlPred) :
    evalPred row (SqlPred.orP ps) = evalAnyPred row ps := by
  simp [evalPred]

theorem evalAllPred_singleton (row : Column → JsVal) (p : SqlPred) :
    evalAllPred row [p] = evalPred row p := by
  simp [evalAllPred]

/-- C10: when the sort instruction list handed to buildCursorWhereClause
ends with the id field and that last instruction reads its cursor value
from the id key (as the instruction appended by ensureIdInSorting does),
the final appended clause is unsatisfiable, so the predicate the builder
returns is logically equivalent, on every row, to the OR of the positional
clauses alone. -/
theorem cursorWhere_final_clause_redundant
    (si : List SortInstruction) (cursorValues : CursorValues)
    (cursorIdField : Column) (keyOf : SortInstruction → String) (idn : String)
    (lastI : SortInstruction)
    (hne : ¬si.length = 0)
    (hid : getColumnNameWB cursorIdField = .ok idn)
    (hkeys : ∀ s ∈ si, getCursorKeyWB s = .ok (keyOf s))
    (hidv : (jsGet cursorValues idn).isSome)
    (hvals : ∀ s ∈ si, (jsGet cursorValues (keyOf s)).isSome)
    (hlast : si.getLast? = some lastI)
    (hcol : lastI.column = cursorIdField)
    (hkey : keyOf lastI = idn) :
    ∀ p, buildCursorWhereClause si cursorValues cursorIdField = .ok (some p) →
      ∀ row : Column → JsVal,
        evalPred row p =
          evalPred row (SqlPred.orP (specPositionalClauses cursorValues keyOf si)) := by
  intro p hp row
  rw [buildCursorWhereClause_closedForm si cursorValues cursorIdField keyOf idn
    hne hid hkeys hidv hvals] at hp
  have hp2 : p = SqlPred.orP (specPositionalClauses cursorValues keyOf si ++
      [specFinalClause cursorValues keyOf si cursorIdField idn]) := by
    injection hp with h
    injection h with h2
    exact h2.symm
  subst hp2
  obtain ⟨w, hw⟩ := Option.isSome_iff_exists.mp hidv
  have hmemLast : lastI ∈ si := by
    have hx : lastI ∈ si.getLast? := by
      rw [hlast]
      rfl
    obtain ⟨hnil, heq⟩ := List.mem_getLast?_eq_getLast hx
    exact heq ▸ List.getLast_mem hnil
  have hfinal : evalPred row
      (specFinalClause cursorValues keyOf si cursorIdField idn) = false := by
    rw [specFinalClause]
    rw [evalPred_andP, evalAllPred_append]
    cases hall : evalAllPred row (si.map (specEqClause cursorValues keyOf)) with
    | false => simp
    | true =>
      have hmem : specEqClause cursorValues keyOf lastI ∈
          si.map (specEqClause cursorValues keyOf) :=
        List.mem_map_of_mem _ hmemLast
      have heqtrue := evalAllPred_eq_true_of_mem row _ hall _ hmem
      rw [specEqClause, hcol, hkey, hw, evalPred_eqP] at heqtrue
      have hroweq : row cursorIdField = w := by
        simpa [jsEqV] using heqtrue
      rw [evalAllPred_singleton, hw, getComparisonOperator]
      by_cases hASC : (match si.getLast? with
          | some s => if s.order = "" then "ASC" else s.order
          | none => "ASC").toUpper = "ASC"
      · rw [if_pos hASC, evalPred_gtP, hroweq, jsLtV_irrefl]
        simp
      · rw [if_neg hASC, evalPred_ltP, hroweq, jsLtV_irrefl]
        simp
  rw [evalPred_orP, evalPred_orP, evalAnyPred_append]
  simp [evalAnyPred, hfinal]

/-- Witness for C10 at a concrete sort ending with the id instruction. -/
theorem cursorWhere_final_clause_redundant_witness :
    evalPred (fun _ => JsVal.num 3)
      (SqlPred.orP (specPositionalClauses
        [("name", JsVal.str "John"), ("id", JsVal.num 3)]
        (fun s => s.propertyKey)
        [⟨"name", Column.named "name", "ASC", none⟩,
         ⟨"id", Column.named "id", "ASC", none⟩] ++
        [specFinalClause [("name", JsVal.str "John"), ("id", JsVal.num 3)]
          (fun s => s.propertyKey)
          [⟨"name", Column.named "name", "ASC", none⟩,
           ⟨"id", Column.named "id", "ASC", none⟩]
          (Column.named "id") "id"])) =
    evalPred (fun _ => JsVal.num 3)
      (SqlPred.orP (specPositionalClauses
        [("name", JsVal.str "John"), ("id", JsVal.num 3)]
        (fun s => s.propertyKey)
        [⟨"name", Column.named "name", "ASC", none⟩,
         ⟨"id", Column.named "id", "ASC", none⟩])) :=
  cursorWhere_final_clause_redundant
    [⟨"name", Column.named "name", "ASC", none⟩,
     ⟨"id", Column.named "id", "ASC", none⟩]
    [("name", JsVal.str "John"), ("id", JsVal.num 3)]
    (Column.named "id") (fun s => s.propertyKey) "id"
    ⟨"id", Column.named "id", "ASC", none⟩
    (by simp) rfl
    (by
      intro s hs
      rw [List.mem_cons, List.mem_singleton] at hs
      rcases hs with h | h <;> subst h <;> rfl)
    rfl
    (by
      intro s hs
      rw [List.mem_cons, List.mem_singleton] at hs
      rcases hs with h | h <;> subst h <;> rfl)
    rfl rfl rfl
    _ rfl (fun _ => JsVal.num 3)

theorem getColumnName_agree (c : Column) (k : String)
    (h : getColumnNameWB c = .ok k) : getColumnNameSvc c = k := by
  cases c with
  | named n =>
    simp [getColumnNameWB] at h
    simp [getColumnNameSvc, h]
  | raw m =>
    cases m with
    | some x =>
      simp [getColumnNameWB] at h
      simp [getColumnNameSvc, h]
    | none => simp [getColumnNameWB] at h

theorem getCursorKey_agree (s : SortInstruction) (k : String)
    (h : getCursorKeyWB s = .ok k) : getCursorKeySvc s = k := by
  rw [getCursorKeyWB] at h
  rw [getCursorKeySvc]
  by_cases hpk : s.propertyKey = ""
  · rw [if_neg (by simp [hpk])] at h
    rw [if_neg (by simp [hpk])]
    rcases hsp : s.sqlProperty with _ | sp
    · rw [hsp] at h
      exact getColumnName_agree _ _ h
    · cases sp with
      | str s2 =>
        rw [hsp] at h
        dsimp only at h
        dsimp only
        by_cases hs2 : s2 = ""
        · rw [if_neg (by simp [hs2])] at h
          rw [if_neg (by simp [hs2])]
          exact getColumnName_agree _ _ h
        · rw [if_pos (by simp [hs2])] at h
          rw [if_pos (by simp [hs2])]
          cases h
          rfl
      | fn f =>
        rw [hsp] at h
        exact getColumnName_agree _ _ h
  · rw [if_pos (by simp [hpk])] at h
    rw [if_pos (by simp [hpk])]
    cases h
    rfl

theorem extractCursorLoop_keys (record : RowRecord) :
    ∀ (si : List SortInstruction) (values m : CursorValues),
    extractCursorLoop record values si = .ok m →
    (∀ k, (jsGet values k).isSome → (jsGet m k).isSome) ∧
    (∀ s ∈ si, (jsGet m (getCursorKeySvc s)).isSome)
  | [], values, m => by
    intro h
    rw [extractCursorLoop] at h
    injection h with h2
    subst h2
    exact ⟨fun k hk => hk, fun s hs => absurd hs (List.not_mem_nil s)⟩
  | sort :: rest, values, m => by
    intro h
    rw [extractCursorLoop] at h
    have step : ∀ v, extractCursorLoop record
        (jsSet values (getCursorKeySvc sort) v) rest = .ok m →
        (∀ k, (jsGet values k).isSome → (jsGet m k).isSome) ∧
        (∀ s ∈ sort :: rest, (jsGet m (getCursorKeySvc s)).isSome) := by
      intro v hrec
      obtain ⟨hmono, hall⟩ := extractCursorLoop_keys record rest
        (jsSet values (getCursorKeySvc sort) v) m hrec
      have hmono2 : ∀ k, (jsGet values k).isSome → (jsGet m k).isSome := by
        intro k hk
        apply hmono
        rw [jsGet_jsSet]
        by_cases hks : getCursorKeySvc sort = k <;> simp [hks, hk]
      have hsort : (jsGet m (getCursorKeySvc sort)).isSome := by
        apply hmono
        rw [jsGet_jsSet]
        simp
      refine ⟨hmono2, ?_⟩
      intro s hs
      rw [List.mem_cons] at hs
      rcases hs with hs | hs
      · exact hs ▸ hsort
      · exact hall s hs
    rcases hsp : sort.sqlProperty with _ | sp
    · rw [hsp] at h
      dsimp only at h
      rcases hg : jsGet record (getCursorKeySvc sort) with _ | v
      · rw [hg] at h
        cases h
      · rw [hg] at h
        exact step v h
    · cases sp with
      | str s2 =>
        rw [hsp] at h
        dsimp only at h
        by_cases hs2 : s2 = ""
        · rw [if_neg (by simp [hs2])] at h
          rcases hg : jsGet record (getCursorKeySvc sort) with _ | v
          · rw [hg] at h
            cases h
          · rw [hg] at h
            exact step v h
        · rw [if_pos (by simp [hs2])] at h
          rcases hg : jsGet record s2 with _ | v
          · rw [hg] at h
            cases h
          · rw [hg] at h
            exact step v h
      | fn f =>
        rw [hsp] at h
        dsimp only at h
        exact step (f record) h

/-- C9 (amended): whenever the where-builder can compute a cursor key for a
sort instruction, the service computes the same key by the same priority
(propertyKey if non-empty, else a string sqlProperty, else the derived
column name), and every cursor mapping the service successfully extracts
from a record supplies a value under every key the where-builder computes;
when the column name is not derivable and neither a non-empty propertyKey
nor a string extractor is present, the service falls back to the empty
string while the where-builder throws instead. -/
theorem cursorKey_roundTrip :
    (∀ (s : SortInstruction) (k : String),
      getCursorKeyWB s = .ok k → getCursorKeySvc s = k) ∧
    (∀ (record : RowRecord) (si : List SortInstruction) (m : CursorValues),
      extractCursorValuesFromRecord record si = .ok m →
      ∀ s ∈ si, ∀ k, getCursorKeyWB s = .ok k → (jsGet m k).isSome) :=
  ⟨getCursorKey_agree,
   fun record si m h s hs k hk => by
    have hall := (extractCursorLoop_keys record si [] m h).2 s hs
    rw [getCursorKey_agree s k hk] at hall
    exact hall⟩

/-- Witness for C9 at a concrete instruction list and record. -/
theorem cursorKey_roundTrip_witness :
    (jsGet (([("name", JsVal.str "John"), ("id", JsVal.num 3)] : CursorValues))
      "name").isSome :=
  cursorKey_roundTrip.2 [("name", JsVal.str "John"), ("id", JsVal.num 3)]
    [⟨"name", Column.named "name", "ASC", none⟩,
     ⟨"id", Column.named "id", "ASC", none⟩]
    [("name", JsVal.str "John"), ("id", JsVal.num 3)]
    rfl
    ⟨"name", Column.named "name", "ASC", none⟩
    (List.mem_cons_self _ _)
    "name" rfl

/-- Counterexample for C9 as frozen: a sort instruction with an empty
propertyKey, a function extractor and an unparseable column. The service
derives the empty-string key and happily produces a cursor, while the
where-builder throws while computing the key for the same instruction, so
the produced cursor does not supply what the where-builder requires. -/
theorem cursorKey_mismatch_counterexample :
    extractCursorValuesFromRecord [("id", JsVal.num 3)]
      [⟨"", Column.raw none, "ASC", some (.fn (fun _ => JsVal.num 7))⟩,
       ⟨"id", Column.named "id", "ASC", none⟩] =
      .ok [("", JsVal.num 7), ("id", JsVal.num 3)] ∧
    getCursorKeySvc ⟨"", Column.raw none, "ASC", some (.fn (fun _ => JsVal.num 7))⟩ = "" ∧
    getCursorKeyWB ⟨"", Column.raw none, "ASC", some (.fn (fun _ => JsVal.num 7))⟩ =
      .error (.error "Unable to extract column name from column reference") ∧
    buildCursorWhereClause
      [⟨"", Column.raw none, "ASC", some (.fn (fun _ => JsVal.num 7))⟩,
       ⟨"id", Column.named "id", "ASC", none⟩]
      [("", JsVal.num 7), ("id", JsVal.num 3)] (Column.named "id") =
      .error (.error "Unable to extract column name from column reference") :=
  ⟨rfl, rfl, rfl, rfl⟩

/-- C1 (amended): executeCursor requests limit plus one rows from the
backend; when at most limit rows come back, all rows are returned and
nextCursor is null (in particular on an exact match to limit); when more
than limit rows come back, exactly limit rows are returned and, provided
limit is at least one and cursor-value extraction from the last returned
row succeeds, nextCursor is the encoding of the extracted mapping. -/
theorem executeCursor_overfetch (results : List RowRecord) (limit : Nat)
    (sortingWithId : List SortInstruction) :
    cursorFetchLimit limit = limit + 1 ∧
    (results.length ≤ limit →
      cursorPageAssemble results limit sortingWithId = .ok ⟨results, none⟩) ∧
    (results.length > limit → 1 ≤ limit →
      (results.take limit).length = limit ∧
      ∀ lastRecord, (results.take limit).getLast? = some lastRecord →
        ∀ m, extractCursorValuesFromRecord lastRecord sortingWithId = .ok m →
          cursorPageAssemble results limit sortingWithId =
            .ok ⟨results.take limit, some (encodeCursor m)⟩) := by
  refine ⟨rfl, ?_, ?_⟩
  · intro hle
    have hnm : ¬results.length > limit := Nat.not_lt.mpr hle
    rw [cursorPageAssemble]
    simp only [if_neg hnm]
    rw [if_neg]
    intro hcontra
    exact hnm hcontra.1
  · intro hgt hl1
    refine ⟨by rw [List.length_take]; omega, ?_⟩
    intro lastRecord hlr m hm
    rw [cursorPageAssemble]
    simp only [if_pos hgt]
    rw [if_pos ⟨hgt, by rw [List.length_take]; omega⟩]
    rw [hlr]
    dsimp only
    rw [hm]
    rfl

/-- Witness for C1 (amended) at limit 1 with two rows coming back. -/
theorem executeCursor_overfetch_witness :
    cursorPageAssemble [[("id", JsVal.num 1)], [("id", JsVal.num 2)]] 1
      [⟨"id", Column.named "id", "ASC", none⟩] =
      .ok ⟨[[("id", JsVal.num 1)]],
        some (encodeCursor [("id", JsVal.num 1)])⟩ :=
  ((executeCursor_overfetch [[("id", JsVal.num 1)], [("id", JsVal.num 2)]] 1
    [⟨"id", Column.named "id", "ASC", none⟩]).2.2 (by decide) (by decide)).2
    [("id", JsVal.num 1)] rfl [("id", JsVal.num 1)] rfl

/-- Counterexample for C1 as frozen: at limit 0 the backend hands back one
row (more than limit), the over-fetched row is dropped, yet nextCursor is
null because no row remains to extract from, contradicting the claim that
more than limit rows always yields a non-null nextCursor. -/
theorem executeCursor_limit_zero_counterexample :
    cursorFetchLimit 0 = 1 ∧
    cursorPageAssemble [[("id", JsVal.num 1)]] 0
      [⟨"id", Column.named "id", "ASC", none⟩] = .ok ⟨[], none⟩ := by
  constructor
  · rfl
  · rfl

/-- C3: with zero resolved filter instructions in offset mode, the query
is issued with no WHERE clause at all, silently dropping the extra
predicates, while the cursor path applies the same extra predicates even
with zero filters. -/
theorem extraConditions_dropped_offsetMode :
    executeOffsetWhere []
      [SqlPred.eqP (Column.named "tenantId") (some (JsVal.num 1))] = .ok none ∧
    executeCursorWhere [] [] (Column.named "id") none
      [SqlPred.eqP (Column.named "tenantId") (some (JsVal.num 1))] =
      .ok (some (SqlPred.andP
        [SqlPred.eqP (Column.named "tenantId") (some (JsVal.num 1))])) :=
  ⟨rfl, rfl⟩

/-- C8 (amended): the switch operator fails when the conditions map is
missing or empty, and fails listing the available keys when the value is
not a recognized key; both failures are thrown as the same plain Error
class, not as a BadRequest distinct from the configuration error. -/
theorem applyFilterOperator_switch_spec (column : Column) (value : JsVal)
    (builder : Option Builder) (table : Option Column) :
    (applyFilterOperator column .switchOp value builder table none =
      .error (.error "conditions mapping is required for \"switch\" filter operator")) ∧
    (∀ conds, conds.isEmpty = true →
      applyFilterOperator column .switchOp value builder table (some conds) =
        .error (.error "conditions mapping is required for \"switch\" filter operator")) ∧
    (∀ conds, conds.isEmpty = false → jsGet conds (jsValToString value) = none →
      applyFilterOperator column .switchOp value builder table (some conds) =
        .error (.error ("Invalid value " ++ jsValToString value ++
          " for switch filter. Available options: " ++
          String.intercalate ", " (conds.map Prod.fst)))) ∧
    (∀ conds f, conds.isEmpty = false →
      jsGet conds (jsValToString value) = some f →
      applyFilterOperator column .switchOp value builder table (some conds) =
        .ok (f column)) := by
  refine ⟨rfl, ?_, ?_, ?_⟩
  · intro conds hempty
    rw [applyFilterOperator]
    rw [if_pos hempty]
  · intro conds hnonempty hmiss
    rw [applyFilterOperator]
    rw [if_neg (by simp [hnonempty]), hmiss]
  · intro conds f hnonempty hhit
    rw [applyFilterOperator]
    rw [if_neg (by simp [hnonempty]), hhit]

/-- Witness for C8 (amended): the unrecognized switch value produces the
plain Error listing the three configured keys. -/
theorem applyFilterOperator_switch_spec_witness :
    applyFilterOperator (Column.named "balance") .switchOp (JsVal.str "unknown")
      none none
      (some [("positive", fun c => SqlPred.gtP c (some (JsVal.num 0))),
             ("negative", fun c => SqlPred.ltP c (some (JsVal.num 0))),
             ("zero", fun c => SqlPred.eqP c (some (JsVal.num 0)))]) =
      .error (.error "Invalid value unknown for switch filter. Available options: positive, negative, zero") :=
  (applyFilterOperator_switch_spec (Column.named "balance") (JsVal.str "unknown")
    none none).2.2.1
    [("positive", fun c => SqlPred.gtP c (some (JsVal.num 0))),
     ("negative", fun c => SqlPred.ltP c (some (JsVal.num 0))),
     ("zero", fun c => SqlPred.eqP c (some (JsVal.num 0)))]
    rfl rfl

/-- Counterexample for C8 as frozen: both the unrecognized-value failure
and the missing-conditions failure are raised as the same plain Error
class; the former is not a BadRequest-class error. -/
theorem switch_error_class_counterexample :
    applyFilterOperator (Column.named "balance") .switchOp (JsVal.str "unknown")
      none none
      (some [("positive", fun c => SqlPred.gtP c (some (JsVal.num 0))),
             ("negative", fun c => SqlPred.ltP c (some (JsVal.num 0))),
             ("zero", fun c => SqlPred.eqP c (some (JsVal.num 0)))]) =
      .error (.error "Invalid value unknown for switch filter. Available options: positive, negative, zero") ∧
    (∀ msg, JsErr.error
      "Invalid value unknown for switch filter. Available options: positive, negative, zero" ≠
      JsErr.badRequest msg) ∧
    applyFilterOperator (Column.named "balance") .switchOp (JsVal.str "x")
      none none none =
      .error (.error "conditions mapping is required for \"switch\" filter operator") :=
  ⟨rfl, fun _ h => JsErr.noConfusion h, rfl⟩

theorem truthyStr_eq_true_iff (o : Option String) :
    truthyStr o = true ↔ (o ≠ none ∧ o ≠ some "") := by
  cases o with
  | none => simp [truthyStr]
  | some s => simp [truthyStr]

/-- C5 (amended): mode resolution decides by JS truthiness, so a parameter
counts as present only when it is a non-empty string: offset-configured
endpoints reject a non-empty cursor parameter and otherwise resolve to
offset; cursor-configured endpoints reject a non-empty page parameter and
otherwise resolve to cursor; with both configured, a non-empty page
selects offset and an absent or empty page selects cursor. -/
theorem validateQueryType_spec (qp : QueryParams) :
    ((qp.cursor ≠ none ∧ qp.cursor ≠ some "") →
      ∃ msg, validateQueryType .offset qp = .error (.badRequest msg)) ∧
    ((qp.cursor = none ∨ qp.cursor = some "") →
      validateQueryType .offset qp = .ok .offset) ∧
    ((qp.page ≠ none ∧ qp.page ≠ some "") →
      ∃ msg, validateQueryType .cursor qp = .error (.badRequest msg)) ∧
    ((qp.page = none ∨ qp.page = some "") →
      validateQueryType .cursor qp = .ok .cursor) ∧
    ((qp.page ≠ none ∧ qp.page ≠ some "") →
      validateQueryType .both qp = .ok .offset) ∧
    ((qp.page = none ∨ qp.page = some "") →
      validateQueryType .both qp = .ok .cursor) := by
  have hfalse : ∀ (o : Option String), (o = none ∨ o = some "") →
      ¬truthyStr o = true := by
    intro o h ht
    rcases h with h | h <;> rw [h] at ht <;> simp [truthyStr] at ht
  refine ⟨?_, ?_, ?_, ?_, ?_, ?_⟩
  · intro h
    rw [validateQueryType, if_pos ((truthyStr_eq_true_iff qp.cursor).mpr h)]
    exact ⟨_, rfl⟩
  · intro h
    rw [validateQueryType, if_neg (hfalse qp.cursor h)]
  · intro h
    rw [validateQueryType, if_pos ((truthyStr_eq_true_iff qp.page).mpr h)]
    exact ⟨_, rfl⟩
  · intro h
    rw [validateQueryType, if_neg (hfalse qp.page h)]
  · intro h
    rw [validateQueryType,
      if_pos ((truthyStr_eq_true_iff qp.page).mpr h)]
  · intro h
    rw [validateQueryType, if_neg (hfalse qp.page h)]

/-- Witness for C5 (amended): a non-empty cursor on an offset endpoint is
rejected, and an absent page with both configured resolves to cursor. -/
theorem validateQueryType_spec_witness :
    (∃ msg, validateQueryType .offset ⟨none, some "abc", none, none, none⟩ =
      .error (.badRequest msg)) ∧
    validateQueryType .both ⟨none, none, none, none, none⟩ = .ok .cursor :=
  ⟨(validateQueryType_spec ⟨none, some "abc", none, none, none⟩).1
    ⟨by decide, by decide⟩,
   (validateQueryType_spec ⟨none, none, none, none, none⟩).2.2.2.2.2
    (Or.inl rfl)⟩

/-- Counterexample for C5 as frozen: a request carrying an empty cursor
parameter on an offset endpoint is not rejected, and a request carrying an
empty page parameter with both configured selects cursor, not offset. -/
theorem validateQueryType_empty_param_counterexample :
    validateQueryType .offset ⟨none, some "", none, none, none⟩ = .ok .offset ∧
    validateQueryType .cursor ⟨some "", none, none, none, none⟩ = .ok .cursor ∧
    validateQueryType .both ⟨some "", none, none, none, none⟩ = .ok .cursor :=
  ⟨rfl, rfl, rfl⟩

/-- C6 (amended): when custom limit is disabled or the limit parameter is
absent or empty, the configured default limit is returned without
validation; a present non-empty limit is parsed with JS parseInt and fails
as a bad request when it yields NaN or a value of at most zero, fails with
the numeric bound quoted in the message when it exceeds maxLimit, and is
returned otherwise. -/
theorem parseLimit_spec (qp : QueryParams) (po : PaginationOptions) :
    ((po.allowCustomLimit.getD true = false ∨ qp.limit = none ∨ qp.limit = some "") →
      parseLimit qp po = .ok (po.limit.getD 10)) ∧
    (∀ s, qp.limit = some s → s ≠ "" → po.allowCustomLimit.getD true = true →
      ((jsParseInt s = none ∨ ∃ v, jsParseInt s = some v ∧ v ≤ 0) →
        parseLimit qp po = .error (.badRequest ("Invalid limit value: " ++ s ++
          ". Limit must be a positive integer"))) ∧
      (∀ v, jsParseInt s = some v → 0 < v → v > po.maxLimit.getD 100 →
        parseLimit qp po = .error (.badRequest ("Limit value " ++ toString v ++
          " exceeds maximum allowed limit of " ++ toString (po.maxLimit.getD 100)))) ∧
      (∀ v, jsParseInt s = some v → 0 < v → v ≤ po.maxLimit.getD 100 →
        parseLimit qp po = .ok v)) := by
  constructor
  · intro h
    rw [parseLimit]
    rw [if_pos]
    rcases h with h | h | h
    · simp [h]
    · simp [h, truthyStr]
    · simp [h, truthyStr]
  · intro s hs hne hcustom
    have hcond : ¬(!po.allowCustomLimit.getD true || !truthyStr qp.limit) = true := by
      simp [hcustom, hs, truthyStr, hne]
    refine ⟨?_, ?_, ?_⟩
    · intro hbad
      rw [parseLimit, if_neg hcond]
      rcases hbad with hbad | ⟨v, hv, hv0⟩
      · simp only [hs, Option.getD_some, hbad]
      · simp only [hs, Option.getD_some, hv]
        rw [if_pos (by omega)]
    · intro v hv h0 hmax
      rw [parseLimit, if_neg hcond]
      simp only [hs, Option.getD_some, hv]
      rw [if_neg (by omega), if_pos hmax]
    · intro v hv h0 hmax
      rw [parseLimit, if_neg hcond]
      simp only [hs, Option.getD_some, hv]
      rw [if_neg (by omega), if_neg (by omega)]

/-- Witness for C6 (amended): limit=500 against maxLimit=100 fails quoting
the bound 100, and limit=20 within the bound is accepted. -/
theorem parseLimit_spec_witness :
    parseLimit ⟨none, none, some "500", none, none⟩
      ⟨none, none, none, none, none, none, none, none⟩ =
      .error (.badRequest "Limit value 500 exceeds maximum allowed limit of 100") ∧
    parseLimit ⟨none, none, some "20", none, none⟩
      ⟨none, none, none, none, none, none, none, none⟩ = .ok 20 := by
  constructor
  · have h := ((parseLimit_spec ⟨none, none, some "500", none, none⟩
      ⟨none, none, none, none, none, none, none, none⟩).2 "500" rfl
      (by decide) rfl).2.1 500 (by decide) (by decide) (by decide)
    exact h
  · have h := ((parseLimit_spec ⟨none, none, some "20", none, none⟩
      ⟨none, none, none, none, none, none, none, none⟩).2 "20" rfl
      (by decide) rfl).2.2 20 (by decide) (by decide) (by decide)
    exact h

/-- Counterexample for C6 as frozen: a present-but-empty limit parameter is
not parsed and does not fail; the configured default is silently returned
instead. -/
theorem parseLimit_empty_param_counterexample :
    parseLimit ⟨none, none, some "", none, none⟩
      ⟨none, none, none, none, none, none, none, none⟩ = .ok 10 := rfl

/-- C4 (amended): page defaults to 1 (and offset to 0) only when the page
parameter is absent or empty; a present non-empty page is passed through
JS parseInt with no validation, so a non-numeric page yields NaN for both
page and offset, any parsed value (zero or negative included) is used as
is, and offset equals (page - 1) * limit whenever page parses. -/
theorem parsePageOffset_spec (qp : QueryParams) (limit : Int) :
    ((qp.page = none ∨ qp.page = some "") →
      parsePageOffset qp limit = (some 1, some 0)) ∧
    (∀ s, qp.page = some s → s ≠ "" →
      parsePageOffset qp limit =
        (jsParseInt s, (jsParseInt s).map (fun p => (p - 1) * limit))) := by
  constructor
  · intro h
    rw [parsePageOffset]
    have hf : ¬truthyStr qp.page = true := by
      rcases h with h | h <;> rw [h] <;> simp [truthyStr]
    rw [if_neg hf]
    simp [jsSub, jsMul]
  · intro s hs hne
    rw [parsePageOffset]
    rw [if_pos (by simp [hs, truthyStr, hne])]
    rw [hs]
    simp only [Option.getD_some]
    cases hp : jsParseInt s with
    | none => simp [jsSub, jsMul]
    | some p => simp [jsSub, jsMul]

/-- Witness for C4 (amended): an absent page gives page 1 and offset 0,
and page=3 with limit 10 gives offset 20. -/
theorem parsePageOffset_spec_witness :
    parsePageOffset ⟨none, none, none, none, none⟩ 10 = (some 1, some 0) ∧
    parsePageOffset ⟨some "3", none, none, none, none⟩ 10 =
      (some 3, some 20) := by
  constructor
  · exact (parsePageOffset_spec ⟨none, none, none, none, none⟩ 10).1 (Or.inl rfl)
  · have h := (parsePageOffset_spec ⟨some "3", none, none, none, none⟩ 10).2
      "3" rfl (by decide)
    rw [h]
    rfl

/-- Counterexample for C4 as frozen: a present non-numeric page does not
default to 1 but becomes NaN together with the offset, and page=0 is
accepted as is, producing a negative offset — page is not always at least
1 and a present-but-invalid value is not guarded. -/
theorem parsePageOffset_counterexample :
    parsePageOffset ⟨some "abc", none, none, none, none⟩ 10 = (none, none) ∧
    parsePageOffset ⟨some "0", none, none, none, none⟩ 10 =
      (some 0, some (-10)) :=
  ⟨rfl, rfl⟩

theorem foldl_invariant {α β : Type} (f : β → α → β) (P : β → Prop) :
    ∀ (l : List α) (init : β), P init →
    (∀ b a, a ∈ l → P b → P (f b a)) → P (l.foldl f init)
  | [], init => fun hinit _ => hinit
  | hd :: tl, init => fun hinit hstep => by
    rw [List.foldl_cons]
    exact foldl_invariant f P tl (f init hd)
      (hstep init hd (List.mem_cons_self _ _) hinit)
      (fun b a ha hb => hstep b a (List.mem_cons_of_mem _ ha) hb)

theorem buildSortableAliases_values (prototype : Proto) (Q : String → Prop)
    (hQ : ∀ pk ∈ prototype.decoratedProps, Q pk) :
    ∀ a pk, jsGet (buildSortableAliases prototype).1 a = some pk → Q pk := by
  rw [buildSortableAliases]
  have := foldl_invariant
    (fun (acc : List (String × String) × List String) propertyKey =>
      match prototype.sortableMeta propertyKey with
      | some sm =>
        if sm.enabled then
          (jsSet acc.1 sm.aliasName propertyKey, acc.2 ++ [sm.aliasName])
        else acc
      | none => acc)
    (fun acc => ∀ a pk, jsGet acc.1 a = some pk → Q pk)
    prototype.decoratedProps ([], [])
    (by intro a pk h; simp [jsGet] at h)
    (by
      intro b key hkey hb a pk h
      dsimp only at h
      rcases hsm : prototype.sortableMeta key with _ | sm
      · rw [hsm] at h
        exact hb a pk h
      · rw [hsm] at h
        dsimp only at h
        by_cases hen : sm.enabled
        · rw [if_pos hen] at h
          dsimp only at h
          rw [jsGet_jsSet] at h
          by_cases hka : sm.aliasName = a
          · rw [if_pos hka] at h
            injection h with h2
            exact h2 ▸ hQ key hkey
          · rw [if_neg hka] at h
            exact hb a pk h
        · rw [if_neg hen] at h
          exact hb a pk h)
  exact this

theorem parseSortingLoop_isOk_iff (sortableAliasMap : List (String × String))
    (availableSortableAliases : List String)
    (propMeta : String → Option Column) (sortOrderArray : List String)
    (hQ : ∀ a pk, jsGet sortableAliasMap a = some pk → (propMeta pk).isSome) :
    ∀ (rest : List String) (i : Nat),
    (parseSortingLoop sortableAliasMap availableSortableAliases propMeta
        sortOrderArray i rest).isOk = true ↔
      ∀ j, j < rest.length →
        (jsGet sortableAliasMap (rest.getD j "")).isSome ∧
        validOrderToken sortOrderArray (i + j)
  | [], i => by
    rw [parseSortingLoop]
    simp [Except.isOk, Except.toBool]
  | a :: rest2, i => by
    rw [parseSortingLoop]
    rcases hga : jsGet sortableAliasMap a with _ | pk
    · dsimp only
      constructor
      · intro h
        simp [Except.isOk, Except.toBool] at h
      · intro h
        have h0 := h 0 (by simp)
        rw [Nat.add_zero] at h0
        simp only [List.getD_cons_zero, hga] at h0
        simp at h0
    · have hpm := hQ a pk hga
      obtain ⟨col, hcol⟩ := Option.isSome_iff_exists.mp hpm
      dsimp only
      rw [hcol]
      dsimp only
      by_cases hord : validOrderToken sortOrderArray i
      · rw [if_neg (by
          rw [validOrderToken] at hord
          intro hcontra
          rcases hord with h1 | h1
          · exact hcontra.1 h1
          · exact hcontra.2 h1)]
        have ih := parseSortingLoop_isOk_iff sortableAliasMap
          availableSortableAliases propMeta sortOrderArray hQ rest2 (i + 1)
        rcases htail : parseSortingLoop sortableAliasMap
            availableSortableAliases propMeta sortOrderArray (i + 1) rest2
          with e | val
        · rw [htail] at ih
          simp only [exceptBind_error]
          constructor
          · intro h
            simp [Except.isOk, Except.toBool] at h
          · intro h
            exfalso
            have : ∀ j, j < rest2.length →
                (jsGet sortableAliasMap (rest2.getD j "")).isSome ∧
                validOrderToken sortOrderArray (i + 1 + j) := by
              intro j hj
              have := h (j + 1) (by simpa using Nat.succ_lt_succ hj)
              rw [List.getD_cons_succ] at this
              have harith : i + (j + 1) = i + 1 + j := by omega
              rw [harith] at this
              exact this
            have hfalse := ih.mpr this
            simp [Except.isOk, Except.toBool] at hfalse
        · rw [htail] at ih
          simp only [exceptBind_ok]
          constructor
          · intro _
            intro j hj
            rcases j with _ | j
            · rw [Nat.add_zero]
              simp only [List.getD_cons_zero]
              exact ⟨by rw [hga]; rfl, hord⟩
            · have hj2 : j < rest2.length := by simpa using Nat.lt_of_succ_lt_succ hj
              have := (ih.mp (by simp [Except.isOk, Except.toBool])) j hj2
              rw [List.getD_cons_succ]
              have harith : i + 1 + j = i + (j + 1) := by omega
              rw [harith] at this
              exact this
          · intro _
            simp [Except.isOk, Except.toBool]
      · rw [if_pos (by
          rw [validOrderToken] at hord
          push_neg at hord
          exact ⟨hord.1, hord.2⟩)]
        constructor
        · intro h
          simp [Except.isOk, Except.toBool] at h
        · intro h
          exfalso
          have h0 := h 0 (by simp)
          rw [Nat.add_zero] at h0
          exact hord h0.2

/-- C7: under the registry invariant established by the Prop decorator
(every decorated property has Prop metadata), parseSorting fails exactly
when custom sorting is active and either multiple aliases are given while
allowMultipleSort is false (the error naming the number of fields), an
alias does not resolve to a sortable field (the error listing the valid
sortable aliases), or a resolved order token is not ASC or DESC
case-insensitively. -/
theorem parseSorting_spec (prototype : Proto) (queryParams : QueryParams)
    (paginationOptions : PaginationOptions)
    (hInv : ∀ pk ∈ prototype.decoratedProps, (prototype.propMeta pk).isSome) :
    ((paginationOptions.allowCustomSort.getD true = false ∨
      truthySortParam queryParams.sortBy = false) →
      parseSorting prototype queryParams paginationOptions =
        .ok (getDefaultSorting paginationOptions)) ∧
    (∀ sb, queryParams.sortBy = some sb →
      paginationOptions.allowCustomSort.getD true = true →
      truthySortParam (some sb) = true →
      (paginationOptions.allowMultipleSort.getD true = false →
        (parseSortArray sb).length > 1 →
        parseSorting prototype queryParams paginationOptions =
          .error (.badRequest ("Multiple sort fields are not allowed. Received " ++
            toString (parseSortArray sb).length ++ " fields: " ++
            String.intercalate ", " (parseSortArray sb) ++
            ". Only single field sorting is permitted."))) ∧
      (¬(paginationOptions.allowMultipleSort.getD true = false ∧
          (parseSortArray sb).length > 1) →
        (((parseSorting prototype queryParams paginationOptions).isOk = true) ↔
          ∀ j, j < (parseSortArray sb).length →
            (jsGet (buildSortableAliases prototype).1
              ((parseSortArray sb).getD j "")).isSome ∧
            validOrderToken (effectiveSortOrder queryParams) j)) ∧
      (¬(paginationOptions.allowMultipleSort.getD true = false ∧
          (parseSortArray sb).length > 1) →
        ∀ a rest2, parseSortArray sb = a :: rest2 →
        jsGet (buildSortableAliases prototype).1 a = none →
        parseSorting prototype queryParams paginationOptions =
          .error (.badRequest (a ++
            " is not a valid sortable field. Available sortable fields: " ++
            String.intercalate ", " (buildSortableAliases prototype).2))) ∧
      (¬(paginationOptions.allowMultipleSort.getD true = false ∧
          (parseSortArray sb).length > 1) →
        ∀ a rest2 pk col, parseSortArray sb = a :: rest2 →
        jsGet (buildSortableAliases prototype).1 a = some pk →
        prototype.propMeta pk = some col →
        ¬validOrderToken (effectiveSortOrder queryParams) 0 →
        parseSorting prototype queryParams paginationOptions =
          .error (.badRequest ("Invalid sort order " ++
            sortOrderToken (effectiveSortOrder queryParams) 0 ++
            " for field " ++ a ++ ". Must be ASC or DESC")))) := by
  constructor
  · intro h
    rw [parseSorting]
    rcases hsb : queryParams.sortBy with _ | sb
    · rfl
    · dsimp only
      rw [if_pos]
      rcases h with h | h
      · simp [h]
      · rw [hsb] at h
        simp [h]
  · intro sb hsb hcustom htruthy
    have hcond1 : ¬(!paginationOptions.allowCustomSort.getD true ||
        !truthySortParam (some sb)) = true := by
      simp [hcustom, htruthy]
    refine ⟨?_, ?_, ?_, ?_⟩
    · intro hms hlen
      rw [parseSorting, hsb]
      dsimp only
      rw [if_neg hcond1, if_pos (by simp [hms, hlen])]
    · intro hnotmulti
      have hnm : ¬(!paginationOptions.allowMultipleSort.getD true &&
          decide ((parseSortArray sb).length > 1)) = true := by
        intro hc
        rw [Bool.and_eq_true] at hc
        refine hnotmulti ⟨?_, of_decide_eq_true hc.2⟩
        have h1 := hc.1
        rwa [Bool.not_eq_true'] at h1
      rw [parseSorting, hsb]
      dsimp only
      rw [if_neg hcond1, if_neg hnm]
      try dsimp only
      have hQ := buildSortableAliases_values prototype
        (fun pk => (prototype.propMeta pk).isSome = true) hInv
      have hiff := parseSortingLoop_isOk_iff (buildSortableAliases prototype).1
        (buildSortableAliases prototype).2 prototype.propMeta
        (effectiveSortOrder queryParams) hQ (parseSortArray sb) 0
      rcases hloop : parseSortingLoop (buildSortableAliases prototype).1
          (buildSortableAliases prototype).2 prototype.propMeta
          (effectiveSortOrder queryParams) 0 (parseSortArray sb) with e | val
      · simp only [exceptBind_error]
        rw [hloop] at hiff
        constructor
        · intro h
          simp [Except.isOk, Except.toBool] at h
        · intro h
          exfalso
          have hok := hiff.mpr (by
            intro j hj
            have := h j hj
            rwa [Nat.zero_add])
          simp [Except.isOk, Except.toBool] at hok
      · simp only [exceptBind_ok]
        rw [hloop] at hiff
        constructor
        · intro _
          intro j hj
          have := hiff.mp (by simp [Except.isOk, Except.toBool]) j hj
          rwa [Nat.zero_add] at this
        · intro _
          simp [Except.isOk, Except.toBool]
    · intro hnotmulti a rest2 hA hgnone
      have hnm : ¬(!paginationOptions.allowMultipleSort.getD true &&
          decide ((parseSortArray sb).length > 1)) = true := by
        intro hc
        rw [Bool.and_eq_true] at hc
        refine hnotmulti ⟨?_, of_decide_eq_true hc.2⟩
        have h1 := hc.1
        rwa [Bool.not_eq_true'] at h1
      rw [parseSorting, hsb]
      dsimp only
      rw [if_neg hcond1, if_neg hnm]
      try dsimp only
      rw [hA, parseSortingLoop]
      try dsimp only
      rw [hgnone]
      rfl
    · intro hnotmulti a rest2 pk col hA hga hcol hord
      have hnm : ¬(!paginationOptions.allowMultipleSort.getD true &&
          decide ((parseSortArray sb).length > 1)) = true := by
        intro hc
        rw [Bool.and_eq_true] at hc
        refine hnotmulti ⟨?_, of_decide_eq_true hc.2⟩
        have h1 := hc.1
        rwa [Bool.not_eq_true'] at h1
      rw [parseSorting, hsb]
      dsimp only
      rw [if_neg hcond1, if_neg hnm]
      try dsimp only
      rw [hA, parseSortingLoop]
      try dsimp only
      rw [hga]
      try dsimp only
      rw [hcol]
      dsimp only
      rw [if_pos (by
        rw [validOrderToken] at hord
        push_neg at hord
        exact hord)]
      rfl

/-- Witness for C7: with allowMultipleSort disabled, sortBy given as the
two aliases name and age fails naming the 2 fields received; with no
sortBy the default sorting is returned without failure; and an alias that
is not sortable fails listing the valid sortable aliases. -/
theorem parseSorting_spec_witness :
    parseSorting
      ⟨["name", "age"],
       fun k => if k = "name" then some (Column.named "name")
                else if k = "age" then some (Column.named "age") else none,
       fun k => if k = "name" then some ⟨true, "name", none⟩
                else if k = "age" then some ⟨true, "age", none⟩ else none⟩
      ⟨none, none, none, some (.arr ["name", "age"]), some (.arr ["desc"])⟩
      ⟨none, none, none, none, none, none, some false, none⟩ =
      .error (.badRequest ("Multiple sort fields are not allowed. Received " ++
        toString (parseSortArray (SortParam.arr ["name", "age"])).length ++
        " fields: " ++
        String.intercalate ", " (parseSortArray (SortParam.arr ["name", "age"])) ++
        ". Only single field sorting is permitted.")) ∧
    parseSorting
      ⟨["name", "age"],
       fun k => if k = "name" then some (Column.named "name")
                else if k = "age" then some (Column.named "age") else none,
       fun k => if k = "name" then some ⟨true, "name", none⟩
                else if k = "age" then some ⟨true, "age", none⟩ else none⟩
      ⟨none, none, none, none, none⟩
      ⟨none, none, none, none, none, none, none, none⟩ =
      .ok (getDefaultSorting ⟨none, none, none, none, none, none, none, none⟩) ∧
    parseSorting
      ⟨["name", "age"],
       fun k => if k = "name" then some (Column.named "name")
                else if k = "age" then some (Column.named "age") else none,
       fun k => if k = "name" then some ⟨true, "name", none⟩
                else if k = "age" then some ⟨true, "age", none⟩ else none⟩
      ⟨none, none, none, some (.arr ["bogus"]), none⟩
      ⟨none, none, none, none, none, none, none, none⟩ =
      .error (.badRequest ("bogus" ++
        " is not a valid sortable field. Available sortable fields: " ++
        String.intercalate ", " (buildSortableAliases
          ⟨["name", "age"],
           fun k => if k = "name" then some (Column.named "name")
                    else if k = "age" then some (Column.named "age") else none,
           fun k => if k = "name" then some ⟨true, "name", none⟩
                    else if k = "age" then some ⟨true, "age", none⟩ else none⟩).2)) :=
  ⟨((parseSorting_spec
      ⟨["name", "age"],
       fun k => if k = "name" then some (Column.named "name")
                else if k = "age" then some (Column.named "age") else none,
       fun k => if k = "name" then some ⟨true, "name", none⟩
                else if k = "age" then some ⟨true, "age", none⟩ else none⟩
      ⟨none, none, none, some (.arr ["name", "age"]), some (.arr ["desc"])⟩
      ⟨none, none, none, none, none, none, some false, none⟩
      (by decide)).2 (SortParam.arr ["name", "age"]) rfl rfl rfl).1
      rfl (by decide),
   (parseSorting_spec
      ⟨["name", "age"],
       fun k => if k = "name" then some (Column.named "name")
                else if k = "age" then some (Column.named "age") else none,
       fun k => if k = "name" then some ⟨true, "name", none⟩
                else if k = "age" then some ⟨true, "age", none⟩ else none⟩
      ⟨none, none, none, none, none⟩
      ⟨none, none, none, none, none, none, none, none⟩
      (by decide)).1 (Or.inr rfl),
   (((parseSorting_spec
      ⟨["name", "age"],
       fun k => if k = "name" then some (Column.named "name")
                else if k = "age" then some (Column.named "age") else none,
       fun k => if k = "name" then some ⟨true, "name", none⟩
                else if k = "age" then some ⟨true, "age", none⟩ else none⟩
      ⟨none, none, none, some (.arr ["bogus"]), none⟩
      ⟨none, none, none, none, none, none, none, none⟩
      (by decide)).2 (SortParam.arr ["bogus"]) rfl rfl rfl).2.2.1
      (by decide) "bogus" [] rfl (by decide))⟩

theorem propDecorator_preserves_invariant (column : Column)
    (propertyKey : String) (prototype : Proto)
    (hInv : ∀ k ∈ prototype.decoratedProps, (prototype.propMeta k).isSome) :
    ∀ k ∈ (PropDecorator column propertyKey prototype).decoratedProps,
      ((PropDecorator column propertyKey prototype).propMeta k).isSome := by
  intro k hk
  rw [PropDecorator] at hk ⊢
  dsimp only at hk ⊢
  by_cases hkp : k = propertyKey
  · rw [if_pos hkp]
    rfl
  · rw [if_neg hkp]
    apply hInv
    by_cases hmem : propertyKey ∈ prototype.decoratedProps
    · rwa [if_pos hmem] at hk
    · rw [if_neg hmem] at hk
      rcases List.mem_append.mp hk with h | h
      · exact h
      · rw [List.mem_singleton] at h
        exact absurd h hkp
